import Mathlib

/-!
Shallow embedding of the line-rewriting core of `rn2md.py` (RedNotebook →
Markdown translator).  Python strings are modelled as `List Char`, string
slicing `s[lo:hi]` as `slice`, and the regular expressions used by the rules
as executable backtracking matchers that enumerate candidate match ends in
the engine's preference order (so `head?` is the match Python's `re` returns).
-/

/-- Python slice `s[lo:hi]` for non-negative indices: characters at positions
`lo ≤ i < hi`, clamped to the string length. -/
def pySlice (s : List Char) (lo hi : Nat) : List Char :=
  (s.take hi).drop lo

/-- `RangesIntersect` from rn2md.py: `v[1] >= u[0] and u[1] >= v[0]`
(inclusive boundary semantics). -/
def RangesIntersect (v u : Nat × Nat) : Bool :=
  decide (u.1 ≤ v.2) && decide (v.1 ≤ u.2)

/-- `Span(string) = (0, len(string))` from rn2md.py. -/
def Span (s : List Char) : Nat × Nat :=
  (0, s.length)

/-- A matcher takes the subject string and a start position and returns the
candidate end positions of a match starting there, in the backtracking
engine's preference order; `[]` means no match at that position. -/
def Matcher : Type :=
  List Char → Nat → List Nat

/-- Match a single character satisfying `p` (a regex character class). -/
def mPred (p : Char → Bool) : Matcher := fun s i =>
  match s.drop i with
  | [] => []
  | c :: _ => if p c then [i + 1] else []

/-- Match one literal character. -/
def mLit (c : Char) : Matcher :=
  mPred (fun x => x = c)

/-- Match one literal character case-insensitively (re.IGNORECASE, ASCII). -/
def mLitCI (c : Char) : Matcher :=
  mPred (fun x => x.toLower = c)

/-- The empty regex (matches zero characters). -/
def mEps : Matcher := fun _ i => [i]

/-- Concatenation of two regexes: every end of `a` continues into `b`,
preserving backtracking order. -/
def mSeq (a b : Matcher) : Matcher := fun s i =>
  (a s i).flatMap (fun j => b s j)

/-- Alternation `a|b`: candidates of `a` are preferred over those of `b`. -/
def mAlt (a b : Matcher) : Matcher := fun s i =>
  a s i ++ b s i

/-- Greedy option `a?`: prefer matching `a` over the empty match. -/
def mOpt (a : Matcher) : Matcher :=
  mAlt a mEps

/-- Greedy bounded repetition `a{0,n}`: prefer more iterations. -/
def mRepMax (a : Matcher) : Nat → Matcher
  | 0 => mEps
  | n + 1 => fun s i => ((a s i).flatMap (fun j => mRepMax a n s j)) ++ [i]

/-- Exact repetition `a{n}`. -/
def mRepExact (a : Matcher) : Nat → Matcher
  | 0 => mEps
  | n + 1 => mSeq a (mRepExact a n)

/-- Fueled greedy star.  All sub-matchers used under a star consume at least
one character, so fuel `s.length` makes this equal to the unbounded greedy
`a*` of the regex engine. -/
def mStarF (a : Matcher) : Nat → List Char → Nat → List Nat
  | 0, _, i => [i]
  | fuel + 1, s, i => ((a s i).flatMap (fun j => mStarF a fuel s j)) ++ [i]

/-- Greedy star `a*`. -/
def mStar (a : Matcher) : Matcher := fun s i =>
  mStarF a s.length s i

/-- Greedy plus `a+`. -/
def mPlus (a : Matcher) : Matcher :=
  mSeq a (mStar a)

/-- Fueled lazy star: prefer fewer iterations. -/
def mLazyF (a : Matcher) : Nat → List Char → Nat → List Nat
  | 0, _, i => [i]
  | fuel + 1, s, i => i :: (a s i).flatMap (fun j => mLazyF a fuel s j)

/-- Lazy star `a*?` (used for `.*?`). -/
def mLazy (a : Matcher) : Matcher := fun s i =>
  mLazyF a s.length s i

/-- Literal string, case-sensitively. -/
def mStr : List Char → Matcher
  | [] => mEps
  | c :: cs => mSeq (mLit c) (mStr cs)

/-- Literal string, case-insensitively. -/
def mStrCI : List Char → Matcher
  | [] => mEps
  | c :: cs => mSeq (mLitCI c) (mStrCI cs)

/-- Regex `.`: any character except a newline. -/
def notNl : Matcher :=
  mPred (fun c => c ≠ '\n')

/-- One step list of `re.finditer`: scan positions left to right starting at
`p`; at the first position where the matcher succeeds, emit the span
`(p, end)` given by the engine's preferred candidate and resume at `end`
(or at `p + 1` for a zero-width match).  Positions strictly increase, so
fuel `s.length + 1` suffices to visit every position `0..s.length`. -/
def finditerF (m : Matcher) (s : List Char) : Nat → Nat → List (Nat × Nat)
  | 0, _ => []
  | fuel + 1, p =>
    if s.length < p then []
    else
      match (m s p).head? with
      | some e => (p, e) :: finditerF m s fuel (if p < e then e else p + 1)
      | none => finditerF m s fuel (p + 1)

/-- `re.finditer(pattern, s)` as a list of spans. -/
def finditer (m : Matcher) (s : List Char) : List (Nat × Nat) :=
  finditerF m s (s.length + 1) 0

/-- Shorthand for the character list of a string literal. -/
def str (s : String) : List Char :=
  s.data

/-- ASCII model of Python's case-insensitive `[A-Z]`. -/
def isAsciiAlpha (c : Char) : Bool :=
  ('A' ≤ c && c ≤ 'Z') || ('a' ≤ c && c ≤ 'z')

/-- ASCII model of `\d`. -/
def isAsciiDigit (c : Char) : Bool :=
  '0' ≤ c && c ≤ '9'

/-- Case-insensitive `[A-Z0-9]`. -/
def isAlnum (c : Char) : Bool :=
  isAsciiAlpha c || isAsciiDigit c

/-- Case-insensitive `[A-Z0-9-]`. -/
def isAlnumDash (c : Char) : Bool :=
  isAlnum c || c = '-'

/-- ASCII model of Python's `\s`: space, tab, newline, carriage return,
form feed, vertical tab. -/
def isPySpace (c : Char) : Bool :=
  c = ' ' || c = '\t' || c = '\n' || c = '\r' || c = '\x0c' || c = '\x0b'

/-- Scheme part of `URL_PATTERN`: `(?:http|file|ftp)s?://` (IGNORECASE). -/
def urlScheme : Matcher :=
  mSeq (mAlt (mStrCI (str "http")) (mAlt (mStrCI (str "file")) (mStrCI (str "ftp"))))
    (mSeq (mOpt (mLitCI 's')) (mStr (str "://")))

/-- One domain label of `URL_PATTERN`:
`[A-Z0-9](?:[A-Z0-9-]{0,61}[A-Z0-9])?\.` -/
def urlLabel : Matcher :=
  mSeq (mPred isAlnum)
    (mSeq (mOpt (mSeq (mRepMax (mPred isAlnumDash) 61) (mPred isAlnum)))
      (mLit '.'))

/-- Top-level-domain alternative `[A-Z]{2,6}\.?` of `URL_PATTERN`. -/
def urlTld1 : Matcher :=
  mSeq (mRepExact (mPred isAsciiAlpha) 2)
    (mSeq (mRepMax (mPred isAsciiAlpha) 4) (mOpt (mLit '.')))

/-- Top-level-domain alternative `[A-Z0-9-]{2,}\.?` of `URL_PATTERN`. -/
def urlTld2 : Matcher :=
  mSeq (mRepExact (mPred isAlnumDash) 2)
    (mSeq (mStar (mPred isAlnumDash)) (mOpt (mLit '.')))

/-- `\d{1,3}` of the dotted-quad alternative. -/
def urlOctet : Matcher :=
  mSeq (mPred isAsciiDigit) (mRepMax (mPred isAsciiDigit) 2)

/-- Dotted-quad host `\d{1,3}\.\d{1,3}\.\d{1,3}\.\d{1,3}`. -/
def urlQuad : Matcher :=
  mSeq urlOctet (mSeq (mLit '.')
    (mSeq urlOctet (mSeq (mLit '.') (mSeq urlOctet (mSeq (mLit '.') urlOctet)))))

/-- The body of `URL_PATTERN` with its leading `^` anchor removed:
scheme, then domain-label host or dotted-quad host, then optional port. -/
def urlBody : Matcher :=
  mSeq urlScheme
    (mSeq (mAlt (mSeq (mPlus urlLabel) (mAlt urlTld1 urlTld2)) urlQuad)
      (mOpt (mSeq (mLit ':') (mPlus (mPred isAsciiDigit)))))

/-- `URL_PATTERN` itself: `^` anchors the body to position 0 (the pattern is
compiled without `re.MULTILINE`, so `^` matches only at the string start). -/
def urlPattern : Matcher := fun s i =>
  if i = 0 then urlBody s i else []

/-- `LINK_PATTERN = \[.*?\]\(.*?\)`. -/
def linkPattern : Matcher :=
  mSeq (mLit '[') (mSeq (mLazy notNl)
    (mSeq (mLit ']') (mSeq (mLit '(') (mSeq (mLazy notNl) (mLit ')')))))

/-- `BACKTICK_PATTERN` from rn2md.py: a backtick, a lazy run of non-newline
characters, a backtick. -/
def backtickPattern : Matcher :=
  mSeq (mLit '\x60') (mSeq (mLazy notNl) (mLit '\x60'))

/-- `OccursInUrl(match)`: does the match's span intersect a span of
`URL_PATTERN.finditer` or of `LINK_PATTERN.finditer` over the whole line? -/
def OccursInUrl (sp : Nat × Nat) (s : List Char) : Bool :=
  (finditer urlPattern s ++ finditer linkPattern s).any
    (fun m => RangesIntersect sp m)

/-- `OccursInBacktick(match)`: does the match's span intersect a span of
`BACKTICK_PATTERN.finditer` over the whole line? -/
def OccursInBacktick (sp : Nat × Nat) (s : List Char) : Bool :=
  (finditer backtickPattern s).any (fun m => RangesIntersect sp m)

/-- The loop of `Morpher.__call__` over the sentinel-extended range list,
specialised to the nonempty case: for the current range emit
`Transform(string[lo:hi])` followed by the untouched text up to the next
range's start (the final "next" is the end-of-line sentinel). -/
def morphLoop (t : List Char → List Char) (s : List Char) :
    List (Nat × Nat) → List Char
  | [] => []
  | [(lo, hi)] => t (pySlice s lo hi) ++ pySlice s hi s.length
  | (lo, hi) :: (lo₂, hi₂) :: rest =>
    t (pySlice s lo hi) ++ pySlice s hi lo₂ ++ morphLoop t s ((lo₂, hi₂) :: rest)

/-- `Morpher.__call__` applied to an already-computed range list: emit the
text before the first range, then the loop, and finally fall back to the
original string when the built output is empty (`return output or string`). -/
def morphCall (rs : List (Nat × Nat)) (t : List Char → List Char)
    (s : List Char) : List Char :=
  let output :=
    match rs with
    | [] => []
    | (lo, _) :: _ => pySlice s 0 lo ++ morphLoop t s rs
  if output.isEmpty then s else output

/-- Variant of `morphLoop` for a Transform that can raise (`TranslateLinks`):
`none` models the exception propagating out of `Morpher.__call__`. -/
def morphLoopOpt (t : List Char → Option (List Char)) (s : List Char) :
    List (Nat × Nat) → Option (List Char)
  | [] => some []
  | [(lo, hi)] =>
    (t (pySlice s lo hi)).map (fun r => r ++ pySlice s hi s.length)
  | (lo, hi) :: (lo₂, hi₂) :: rest => do
    let r ← t (pySlice s lo hi)
    let k ← morphLoopOpt t s ((lo₂, hi₂) :: rest)
    pure (r ++ pySlice s hi lo₂ ++ k)

/-- `Morpher.__call__` with a fallible Transform. -/
def morphCallOpt (rs : List (Nat × Nat)) (t : List Char → Option (List Char))
    (s : List Char) : Option (List Char) :=
  match rs with
  | [] => some s
  | (lo, _) :: _ =>
    (morphLoopOpt t s rs).map (fun k =>
      let output := pySlice s 0 lo ++ k
      if output.isEmpty then s else output)

/-- Modelled from the spec: `iterutils.grouper(2, ·)` (the `iterutils` module
is not under src/).  Per §4.4 the Italics rule takes "every second consecutive
pair of `//` delimiter occurrences … paired as (open, close)" and "odd number
of delimiters → trailing unmatched one is ignored"; `grouper` chunks the
match iterator two at a time, padding a trailing odd chunk with `None`. -/
def grouper2 {α : Type} : List α → List (Option α × Option α)
  | [] => []
  | [a] => [(some a, none)]
  | a :: b :: rest => (some a, some b) :: grouper2 rest

/-- The `//` occurrences of a line that survive the two context guards. -/
def italicsCandidates (s : List Char) : List (Nat × Nat) :=
  (finditer (mStr (str "//")) s).filter
    (fun sp => !OccursInUrl sp s && !OccursInBacktick sp s)

/-- `TranslateItalics.FindRanges`: group the guarded `//` occurrences two at
a time and keep `(lo.start(), hi.end())` for every fully-paired group
(`if all((lo, hi))` drops the padded odd tail). -/
def italicsFindRanges (s : List Char) : List (Nat × Nat) :=
  (grouper2 (italicsCandidates s)).filterMap (fun p =>
    match p with
    | (some lo, some hi) => some (lo.1, hi.2)
    | _ => none)

/-- `TranslateItalics.Transform`: `"_{}_".format(old[2:-2])`. -/
def italicsTransform (old : List Char) : List Char :=
  '_' :: (pySlice old 2 (old.length - 2) ++ ['_'])

/-- The Italics rule applied to one line. -/
def TranslateItalics (s : List Char) : List Char :=
  morphCall (italicsFindRanges s) italicsTransform s

/-- The image regex `\[""file://.*?""\.(jpg|tif|png|gif)\]`. -/
def imagePattern : Matcher :=
  mSeq (mStr (str "[\"\"file://")) (mSeq (mLazy notNl)
    (mSeq (mStr (str "\"\"")) (mSeq (mLit '.')
      (mSeq (mAlt (mStr (str "jpg")) (mAlt (mStr (str "tif"))
        (mAlt (mStr (str "png")) (mStr (str "gif")))))
        (mLit ']')))))

/-- `TranslateImages.Transform`:
`"![]({})".format(old[5:-7] + old[-5:-1])`. -/
def imagesTransform (old : List Char) : List Char :=
  str "![](" ++ pySlice old 5 (old.length - 7)
    ++ pySlice old (old.length - 5) (old.length - 1) ++ [')']

/-- The Image rule applied to one line. -/
def TranslateImages (s : List Char) : List Char :=
  morphCall (finditer imagePattern s) imagesTransform s

/-- The link-rule regex `\[[^"].*?""\]`. -/
def linkRulePattern : Matcher :=
  mSeq (mLit '[') (mSeq (mPred (fun c => c ≠ '"'))
    (mSeq (mLazy notNl) (mSeq (mLit '"') (mSeq (mLit '"') (mLit ']')))))

/-- `re.search(r'\s""', old)`: index of the leftmost whitespace character
followed by two double quotes, if any. -/
def findSpaceQQ : List Char → Nat → Option Nat
  | a :: b :: c :: rest, i =>
    if isPySpace a && b = '"' && c = '"' then some i
    else findSpaceQQ (b :: c :: rest) (i + 1)
  | _, _ => none

/-- Python `str.strip()`. -/
def pyStrip (l : List Char) : List Char :=
  ((l.dropWhile isPySpace).reverse.dropWhile isPySpace).reverse

/-- `str.replace` of one character by a backslash-escaped copy. -/
def escapeChar (c : Char) (l : List Char) : List Char :=
  l.flatMap (fun x => if x = c then ['\\', c] else [x])

/-- `TranslateLinks.Transform`.  `re.search(r'\s""', old)` returns `None`
when `old` has no whitespace followed by `""`, and the immediate `.end()`
call then raises `AttributeError`; the `none` result models that exception.
Otherwise `name = old[1:m.start()].strip()`, `url = old[m.end():-3].strip()`
with `_` and `*` backslash-escaped in the url. -/
def linksTransform (old : List Char) : Option (List Char) :=
  match findSpaceQQ old 0 with
  | none => none
  | some j =>
    let name := pyStrip (pySlice old 1 j)
    let url := pyStrip (pySlice old (j + 3) (old.length - 3))
    some ('[' :: (name ++ ']' :: '(' :: (escapeChar '*' (escapeChar '_' url) ++ [')'])))

/-- The Link rule applied to one line; `none` models an uncaught
`AttributeError` escaping `Morpher.__call__`. -/
def TranslateLinks (s : List Char) : Option (List Char) :=
  morphCallOpt (finditer linkRulePattern s) linksTransform s

/-- Length of the leading `=`-run: the `.start()` of `re.search("[^=]", s)`
when that search succeeds. -/
def eqRun (s : List Char) : Nat :=
  (s.takeWhile (fun c => c = '=')).length

/-- `TranslateHeaders.FindRanges`: the two `re.search("[^=]", ·)` calls on
the line and its reverse both succeed exactly when some character differs
from `=`; the rule fires only when both leading and trailing `=`-runs are
nonzero and of equal length, and then covers the whole line. -/
def headersFindRanges (s : List Char) : List (Nat × Nat) :=
  if s.all (fun c => c = '=') then []
  else
    if eqRun s ≠ 0 ∧ eqRun s.reverse ≠ 0 then
      if eqRun s = eqRun s.reverse then [Span s] else []
    else []

/-- `TranslateHeaders.Transform` with its `padding` field:
`"#"*(padding + level) + " " + old[level:-level]` where `level` is the end
of `re.search(r"^=+", old)` (the matched `old` always starts with `=`). -/
def headersTransform (padding : Nat) (old : List Char) : List Char :=
  List.replicate (padding + eqRun old) '#'
    ++ ' ' :: pySlice old (eqRun old) (old.length - eqRun old)

/-- The Header rule applied to one line. -/
def TranslateHeaders (padding : Nat) (s : List Char) : List Char :=
  morphCall (headersFindRanges s) (headersTransform padding) s

/-- The mutable state of a `TranslateLists` instance: `self.history` and
`self.missed_one`. -/
structure ListsState where
  history : List Nat
  missedOne : Bool
deriving DecidableEq, Repr

/-- `re.search(r"^\s*(\+|-)\s", string)`, reduced to what the rule reads:
the span of group 1 is `(w, w+1)` and `m.end(1) = w+1` where `w` is the
length of the maximal leading whitespace run.  Backtracking the greedy
`\s*` cannot produce another match because a shorter run leaves a
whitespace character where `(\+|-)` must match, so checking the maximal
run is complete. -/
def listMatch (s : List Char) : Option (Nat × Char) :=
  let w := (s.takeWhile isPySpace).length
  match s.drop w with
  | c :: d :: _ =>
    if (c = '+' || c = '-') && isPySpace d then some (w, c) else none
  | _ => none

/-- `TranslateLists._ResizeHistory(size)`:
`history = history[:size] + [0]*(size - len(history))` (and
`missed_one = False`, applied by the caller). -/
def resizeHistory (h : List Nat) (size : Nat) : List Nat :=
  h.take size ++ List.replicate (size - h.length) 0

/-- `self.history[-1] += 1` on a nonempty history. -/
def incLast (h : List Nat) : List Nat :=
  h.dropLast ++ [h.getLastD 0 + 1]

/-- `TranslateLists.FindRanges`, returning the updated state and the span
list.  On a non-matching line `_UpdateMisses` either clears the history
(second consecutive miss) or sets the missed flag; on a matching line the
history is resized to `m.end(1)` and, for a `+` marker, its last counter is
incremented and the marker's span is returned. -/
def listsFindRanges (st : ListsState) (s : List Char) :
    ListsState × List (Nat × Nat) :=
  match listMatch s with
  | none =>
    (⟨if st.missedOne then [] else st.history, true⟩, [])
  | some (w, c) =>
    let h := resizeHistory st.history (w + 1)
    if c = '+' then (⟨incLast h, false⟩, [(w, w + 1)])
    else (⟨h, false⟩, [])

/-- `TranslateLists.Transform`: `str(self.history[-1]) + "."`; the span list
is nonempty only on the `+` branch, which guarantees a nonempty history, so
`getLastD` never takes its default there. -/
def listsTransform (st : ListsState) (_old : List Char) : List Char :=
  Nat.toDigits 10 (st.history.getLastD 0) ++ ['.']

/-- One line through a `TranslateLists` instance: `FindRanges` mutates the
state, then `Morpher.__call__` rewrites using the updated state. -/
def translateListsLine (st : ListsState) (s : List Char) :
    ListsState × List Char :=
  let p := listsFindRanges st s
  (p.1, morphCall p.2 (listsTransform p.1) s)

/-- A sequence of lines through one `TranslateLists` instance. -/
def translateListsAll (st : ListsState) : List (List Char) → List (List Char)
  | [] => []
  | l :: rest =>
    let p := translateListsLine st l
    p.2 :: translateListsAll p.1 rest

/-- The claims' validity condition on a range list: starts at or after `p`,
each range is well-formed (`lo ≤ hi`), consecutive ranges do not overlap and
are listed in increasing order, and everything lies inside a string of
length `len`. -/
def validFrom (len : Nat) : Nat → List (Nat × Nat) → Bool
  | p, [] => decide (p ≤ len)
  | p, (lo, hi) :: rest => decide (p ≤ lo) && decide (lo ≤ hi) && validFrom len hi rest

/-- The untouched gaps of a rewrite: text before the first range, between
consecutive ranges, and after the last range (the whole line when the range
list is empty). -/
def gapsList (s : List Char) : Nat → List (Nat × Nat) → List (List Char)
  | p, [] => [pySlice s p s.length]
  | p, (lo, hi) :: rest => pySlice s p lo :: gapsList s hi rest

/-- The matched substrings of a rewrite. -/
def matchesList (s : List Char) (rs : List (Nat × Nat)) : List (List Char) :=
  rs.map (fun r => pySlice s r.1 r.2)

/-- The interleaving the spec describes: gaps alternating with transformed
matches. -/
def interleaveOut (t : List Char → List Char) (s : List Char) :
    Nat → List (Nat × Nat) → List Char
  | p, [] => pySlice s p s.length
  | p, (lo, hi) :: rest =>
    pySlice s p lo ++ t (pySlice s lo hi) ++ interleaveOut t s hi rest

/-- The same interleaving with the identity transform: gaps and raw matches
in order. -/
def reconstruct (s : List Char) : Nat → List (Nat × Nat) → List Char
  | p, [] => pySlice s p s.length
  | p, (lo, hi) :: rest =>
    pySlice s p lo ++ pySlice s lo hi ++ reconstruct s hi rest

/-- Adjacent pairing as the spec words it: first occurrence with the second,
third with the fourth, and so on; a trailing unpaired element is dropped. -/
def pairAdjacent {α : Type} : List α → List (α × α)
  | a :: b :: rest => (a, b) :: pairAdjacent rest
  | _ => []

theorem pySlice_append (s : List Char) (a b c : Nat) (hab : a ≤ b) (hbc : b ≤ c) :
    pySlice s a b ++ pySlice s b c = pySlice s a c := by
  have htake : s.take b = (s.take c).take b := by
    rw [List.take_take b c s, Nat.min_eq_left hbc]
  unfold pySlice
  rw [htake]
  by_cases h : a ≤ ((s.take c).take b).length
  · conv_rhs => rw [show s.take c = (s.take c).take b ++ (s.take c).drop b from
      (List.take_append_drop b (s.take c)).symm]
    rw [List.drop_append_eq_append_drop, Nat.sub_eq_zero_of_le h, List.drop_zero]
  · have hlen : (s.take c).length ≤ a := by
      rw [List.length_take] at h
      omega
    rw [List.drop_of_length_le (le_trans (by rw [List.length_take]; omega) hlen),
      List.drop_of_length_le (le_trans hlen hab),
      List.drop_of_length_le hlen]
    rfl

theorem validFrom_le (len : Nat) :
    ∀ (rs : List (Nat × Nat)) (p : Nat), validFrom len p rs = true → p ≤ len
  | [], p => by simp [validFrom]
  | (lo, hi) :: rest, p => by
    simp only [validFrom, Bool.and_eq_true, decide_eq_true_eq]
    intro h
    exact le_trans h.1.1 (le_trans h.1.2 (validFrom_le len rest hi h.2))

theorem reconstruct_eq (s : List Char) :
    ∀ (rs : List (Nat × Nat)) (p : Nat), validFrom s.length p rs = true →
      reconstruct s p rs = pySlice s p s.length
  | [], p => by intro _; rfl
  | (lo, hi) :: rest, p => by
    simp only [validFrom, Bool.and_eq_true, decide_eq_true_eq]
    intro h
    have hhi : hi ≤ s.length := validFrom_le s.length rest hi h.2
    rw [reconstruct, reconstruct_eq s rest hi h.2, List.append_assoc,
      pySlice_append s lo hi s.length h.1.2 hhi,
      pySlice_append s p lo s.length h.1.1 (le_trans h.1.2 hhi)]

theorem reconstruct_whole (s : List Char) (rs : List (Nat × Nat))
    (h : validFrom s.length 0 rs = true) : reconstruct s 0 rs = s := by
  rw [reconstruct_eq s rs 0 h]
  unfold pySlice
  rw [List.take_length, List.drop_zero]

theorem morphLoop_eq (t : List Char → List Char) (s : List Char) :
    ∀ (rs : List (Nat × Nat)) (lo hi : Nat),
      morphLoop t s ((lo, hi) :: rs) = t (pySlice s lo hi) ++ interleaveOut t s hi rs
  | [], lo, hi => by rfl
  | (lo₂, hi₂) :: rest, lo, hi => by
    rw [morphLoop, morphLoop_eq t s rest lo₂ hi₂, interleaveOut]
    simp [List.append_assoc]

theorem morphCall_eq_interleave (rs : List (Nat × Nat))
    (t : List Char → List Char) (s : List Char) :
    morphCall rs t s =
      if (interleaveOut t s 0 rs).isEmpty then s else interleaveOut t s 0 rs := by
  match rs with
  | [] =>
    show (if ([] : List Char).isEmpty then s else []) =
      if (interleaveOut t s 0 []).isEmpty then s else interleaveOut t s 0 []
    have hwhole : interleaveOut t s 0 [] = s := by
      show pySlice s 0 s.length = s
      unfold pySlice
      rw [List.take_length, List.drop_zero]
    rw [hwhole]
    simp
  | (lo, hi) :: rest =>
    show (if (pySlice s 0 lo ++ morphLoop t s ((lo, hi) :: rest)).isEmpty then s
        else pySlice s 0 lo ++ morphLoop t s ((lo, hi) :: rest)) = _
    rw [morphLoop_eq t s rest lo hi]
    rw [show pySlice s 0 lo ++ (t (pySlice s lo hi) ++ interleaveOut t s hi rest)
        = interleaveOut t s 0 ((lo, hi) :: rest) from by
      rw [interleaveOut, List.append_assoc]]

theorem interleave_length (t : List Char → List Char) (s : List Char) :
    ∀ (rs : List (Nat × Nat)) (p : Nat),
      (interleaveOut t s p rs).length =
        ((gapsList s p rs).map List.length).sum
          + ((matchesList s rs).map (fun m => (t m).length)).sum
  | [], p => by simp [interleaveOut, gapsList, matchesList]
  | (lo, hi) :: rest, p => by
    rw [interleaveOut, gapsList]
    show (pySlice s p lo ++ t (pySlice s lo hi) ++ interleaveOut t s hi rest).length = _
    rw [List.length_append, List.length_append, interleave_length t s rest hi]
    simp [matchesList, List.map_cons, List.sum_cons]
    omega

theorem morphCall_nil (t : List Char → List Char) (s : List Char) :
    morphCall [] t s = s := by
  show (if ([] : List Char).isEmpty then s else []) = s
  simp

theorem pySlice_nil (s : List Char) : pySlice s 0 0 = [] := by
  simp [pySlice]

theorem pySlice_whole (s : List Char) : pySlice s 0 s.length = s := by
  simp [pySlice]

theorem pySlice_past (s : List Char) : pySlice s s.length s.length = [] := by
  simp [pySlice]

theorem morphCall_whole (t : List Char → List Char) (s : List Char) :
    morphCall [(0, s.length)] t s = if (t s).isEmpty then s else t s := by
  show (if (pySlice s 0 0 ++ morphLoop t s [(0, s.length)]).isEmpty then s else _) = _
  rw [show morphLoop t s [(0, s.length)]
      = t (pySlice s 0 s.length) ++ pySlice s s.length s.length from rfl]
  rw [pySlice_nil, pySlice_whole, pySlice_past, List.nil_append, List.append_nil]

theorem grouper2_filterMap_eq_pairAdjacent :
    ∀ xs : List (Nat × Nat),
      (grouper2 xs).filterMap (fun p =>
        match p with
        | (some lo, some hi) => some (lo.1, hi.2)
        | _ => none)
        = (pairAdjacent xs).map (fun q => (q.1.1, q.2.2))
  | [] => rfl
  | [_] => rfl
  | a :: b :: rest => by
    rw [grouper2, pairAdjacent, List.filterMap_cons, List.map_cons,
      grouper2_filterMap_eq_pairAdjacent rest]

theorem italicsFindRanges_eq_pairAdjacent (s : List Char) :
    italicsFindRanges s
      = (pairAdjacent (italicsCandidates s)).map (fun q => (q.1.1, q.2.2)) :=
  grouper2_filterMap_eq_pairAdjacent (italicsCandidates s)

/-- The spec's reading of the header pattern: a nonzero leading `=`-run, a
trailing `=`-run of the same length, and at least one character that is not
`=` (equivalently, the run does not cover the whole line). -/
def headerShape (s : List Char) : Prop :=
  0 < eqRun s ∧ eqRun s = eqRun s.reverse ∧ eqRun s < s.length

instance (s : List Char) : Decidable (headerShape s) := by
  unfold headerShape
  infer_instance

theorem eqRun_le_length (s : List Char) : eqRun s ≤ s.length :=
  (List.takeWhile_sublist (fun c => c = '=')).length_le

theorem all_eq_iff_eqRun_length :
    ∀ s : List Char, s.all (fun c => c = '=') = true ↔ eqRun s = s.length
  | [] => by simp [eqRun]
  | c :: rest => by
    by_cases hc : c = '='
    · have h1 : eqRun (c :: rest) = eqRun rest + 1 := by
        simp [eqRun, List.takeWhile_cons, hc]
      have h2 : eqRun rest ≤ rest.length := eqRun_le_length rest
      simp only [List.all_cons, Bool.and_eq_true, decide_eq_true_eq, h1,
        List.length_cons, all_eq_iff_eqRun_length rest]
      constructor
      · intro h
        omega
      · intro h
        exact ⟨hc, by omega⟩
    · have h1 : eqRun (c :: rest) = 0 := by
        simp [eqRun, List.takeWhile_cons, hc]
      simp only [List.all_cons, Bool.and_eq_true, decide_eq_true_eq, h1, List.length_cons]
      constructor
      · intro h
        exact absurd h.1 hc
      · intro h
        omega

theorem headersFindRanges_eq_shape (s : List Char) :
    headersFindRanges s = if headerShape s then [Span s] else [] := by
  have hle : eqRun s ≤ s.length := eqRun_le_length s
  by_cases hall : s.all (fun c => c = '=') = true
  · have hlen : eqRun s = s.length := (all_eq_iff_eqRun_length s).1 hall
    have hnsh : ¬ headerShape s := by
      intro hsh
      rcases hsh with ⟨h1, h2, h3⟩
      omega
    rw [headersFindRanges, if_pos hall, if_neg hnsh]
  · have hne : eqRun s ≠ s.length := fun h => hall ((all_eq_iff_eqRun_length s).2 h)
    have hlt : eqRun s < s.length := by omega
    rw [headersFindRanges, if_neg hall]
    by_cases hz : eqRun s ≠ 0 ∧ eqRun s.reverse ≠ 0
    · rw [if_pos hz]
      by_cases heq : eqRun s = eqRun s.reverse
      · have hsh : headerShape s := ⟨by omega, heq, hlt⟩
        rw [if_pos heq, if_pos hsh]
      · have hnsh : ¬ headerShape s := by
          intro hsh
          exact heq hsh.2.1
        rw [if_neg heq, if_neg hnsh]
    · rw [if_neg hz]
      have hnsh : ¬ headerShape s := by
        intro hsh
        rcases hsh with ⟨h1, h2, h3⟩
        exact hz ⟨by omega, by omega⟩
      rw [if_neg hnsh]

theorem headersTransform_ne_nil (padding : Nat) (old : List Char)
    (h : 0 < eqRun old) :
    ∃ rest, headersTransform padding old = '#' :: rest := by
  rw [headersTransform]
  rcases hpk : padding + eqRun old with _ | k
  · omega
  · exact ⟨List.replicate k '#'
      ++ ' ' :: pySlice old (eqRun old) (old.length - eqRun old), rfl⟩

theorem eqRun_hash (rest : List Char) : eqRun ('#' :: rest) = 0 := by
  simp [eqRun, List.takeWhile_cons_of_neg]

theorem headersFindRanges_hash (rest : List Char) :
    headersFindRanges ('#' :: rest) = [] := by
  rw [headersFindRanges]
  rw [if_neg (by simp : ¬ (('#' :: rest).all (fun c => c = '=') = true))]
  rw [if_neg (by simp [eqRun_hash] : ¬ (eqRun ('#' :: rest) ≠ 0 ∧ eqRun ('#' :: rest).reverse ≠ 0))]

theorem headers_apply_shape (p : Nat) (s : List Char) (hsh : headerShape s) :
    TranslateHeaders p s = headersTransform p s := by
  rw [TranslateHeaders, headersFindRanges_eq_shape, if_pos hsh]
  rw [show Span s = (0, s.length) from rfl, morphCall_whole]
  obtain ⟨rest, hrest⟩ := headersTransform_ne_nil p s hsh.1
  rw [hrest]
  simp

theorem finditerF_urlPattern_pos (s : List Char) :
    ∀ (fuel p : Nat), 1 ≤ p → finditerF urlPattern s fuel p = []
  | 0, _ => fun _ => rfl
  | fuel + 1, p => fun hp => by
    rw [finditerF]
    by_cases hlen : s.length < p
    · rw [if_pos hlen]
    · rw [if_neg hlen]
      have hurl : urlPattern s p = [] := by
        simp only [urlPattern]
        rw [if_neg (by omega : ¬ p = 0)]
      simp only [hurl, List.head?_nil]
      exact finditerF_urlPattern_pos s fuel (p + 1) (by omega)

theorem finditer_urlPattern_eq (s : List Char) :
    finditer urlPattern s =
      match (urlBody s 0).head? with
      | some e => [(0, e)]
      | none => [] := by
  rw [finditer, finditerF, if_neg (by omega : ¬ s.length < 0)]
  have h0 : urlPattern s 0 = urlBody s 0 := by simp [urlPattern]
  rw [h0]
  cases h : (urlBody s 0).head? with
  | none =>
    exact finditerF_urlPattern_pos s s.length 1 (by omega)
  | some e =>
    have hrest : finditerF urlPattern s s.length (if 0 < e then e else 0 + 1) = [] := by
      by_cases he : 0 < e
      · rw [if_pos he]
        exact finditerF_urlPattern_pos s s.length e he
      · rw [if_neg he]
        exact finditerF_urlPattern_pos s s.length (0 + 1) (by omega)
    show (0, e) :: finditerF urlPattern s s.length (if 0 < e then e else 0 + 1) = [(0, e)]
    rw [hrest]

/-- Spec §8 link example: `[My Site ""http://ex.com/a_b""]` rewrites to
`[My Site](http://ex.com/a\_b)` (a well-formed link does not raise). -/
theorem links_spec_example :
    TranslateLinks (str "[My Site \"\"http://ex.com/a_b\"\"]")
      = some (str "[My Site](http://ex.com/a\\_b)") := by decide

/-- The spec's own §7 example of malformed input, `[name ""url"]` with an
unmatched quote, is indeed passed through untouched without raising. -/
theorem links_malformed_spec_example :
    TranslateLinks (str "x [name \"\"url\"] y") = some (str "x [name \"\"url\"] y") := by
  decide

/-- Claim C1 (corrected): the coverage invariant fails as stated because of
the `return output or string` fallback of `Morpher.__call__`.  For the
nonempty line `ab`, the single valid span `(0, 2)` and a Transform returning
the empty string, the sum of gap lengths and Transform-result lengths is `0`,
yet the call returns the original line `ab` of length `2`, whose characters
appear in the output even though they were consumed by the Transform. -/
theorem claim_C1_counterexample :
    validFrom (str "ab").length 0 [(0, 2)] = true
    ∧ morphCall [(0, 2)] (fun _ => []) (str "ab") = str "ab"
    ∧ ((gapsList (str "ab") 0 [(0, 2)]).map List.length).sum
        + ((matchesList (str "ab") [(0, 2)]).map
            (fun m => ((fun (_ : List Char) => ([] : List Char)) m).length)).sum = 0
    ∧ (morphCall [(0, 2)] (fun _ => []) (str "ab")).length ≠ 0 := by decide

/-- Claim C1 (amended): for every line and every ordered, pairwise
non-overlapping, increasing span list, the gaps and the raw matches
interleaved in order reconstruct the line exactly (each character consumed
once); `Morpher.__call__` returns the gap/Transform interleaving unless that
interleaving is empty, in which case the original line is returned unchanged
(the `output or string` fallback); and the interleaving's length is the sum
of the gap lengths plus the sum of the Transform-result lengths. -/
theorem claim_C1_amended (s : List Char) (t : List Char → List Char)
    (rs : List (Nat × Nat)) (h : validFrom s.length 0 rs = true) :
    reconstruct s 0 rs = s
    ∧ morphCall rs t s =
        (if (interleaveOut t s 0 rs).isEmpty then s else interleaveOut t s 0 rs)
    ∧ (interleaveOut t s 0 rs).length =
        ((gapsList s 0 rs).map List.length).sum
          + ((matchesList s rs).map (fun m => (t m).length)).sum :=
  ⟨reconstruct_whole s rs h, morphCall_eq_interleave rs t s,
    interleave_length t s rs 0⟩

/-- Claim C1 witness: the amended statement instantiated at the line `ab`,
the span list `[(0, 2)]` and the identity Transform. -/
theorem claim_C1_amended_witness :
    reconstruct (str "ab") 0 [(0, 2)] = str "ab"
    ∧ morphCall [(0, 2)] (fun x => x) (str "ab") =
        (if (interleaveOut (fun x => x) (str "ab") 0 [(0, 2)]).isEmpty then str "ab"
          else interleaveOut (fun x => x) (str "ab") 0 [(0, 2)])
    ∧ (interleaveOut (fun x => x) (str "ab") 0 [(0, 2)]).length =
        ((gapsList (str "ab") 0 [(0, 2)]).map List.length).sum
          + ((matchesList (str "ab") [(0, 2)]).map
              (fun m => ((fun x => x) m).length)).sum :=
  claim_C1_amended (str "ab") (fun x => x) [(0, 2)] (by decide)

/-- Claim C2 (code bug): on the line `[x""]`, `TranslateLinks.FindRanges`
matches the whole line (span `(0, 5)` of `\[[^"].*?""\]`), but its Transform
finds no whitespace-quote-quote separator, so `re.search(r'\s""', old)`
returns `None` and the `.end()` call raises `AttributeError` — modelled here
as the rule returning `none` instead of the claimed silent pass-through. -/
theorem claim_C2_link_crash :
    finditer linkRulePattern (str "[x\"\"]") = [(0, 5)]
    ∧ TranslateLinks (str "[x\"\"]") = none := by decide

/-- Claim C3 (corrected), counterexample: in the line `x http://a.com/b`,
the URL-literal body matches at position 2 (ending at 14), the `//` at
span `(7, 9)` intersects that occurrence, yet `OccursInUrl` is false,
because `URL_PATTERN` is `^`-anchored and its `finditer` never matches
away from position 0 — a mid-line bare URL does not shield. -/
theorem claim_C3_counterexample :
    (urlBody (str "x http://a.com/b") 2).head? = some 14
    ∧ finditer (mStr (str "//")) (str "x http://a.com/b") = [(7, 9)]
    ∧ RangesIntersect (7, 9) (2, 14) = true
    ∧ OccursInUrl (7, 9) (str "x http://a.com/b") = false := by decide

/-- Claim C3 (amended): `OccursInUrl` is true exactly when the candidate
span intersects the URL-literal match anchored at position 0 of the line
(when the line starts with such a URL) or some occurrence of the Markdown
link pattern `[...](...)` anywhere in the line. -/
theorem claim_C3_amended (sp : Nat × Nat) (s : List Char) :
    OccursInUrl sp s = true ↔
      ((∃ e, (urlBody s 0).head? = some e ∧ RangesIntersect sp (0, e) = true)
        ∨ ∃ r ∈ finditer linkPattern s, RangesIntersect sp r = true) := by
  rw [OccursInUrl, List.any_append, Bool.or_eq_true, List.any_eq_true,
    List.any_eq_true, finditer_urlPattern_eq]
  cases h : (urlBody s 0).head? with
  | none => simp
  | some e => simp

/-- Claim C4 (code bug): the image construct `[""file://a"".png]` is matched
whole, but the Transform's `old[5:-7]` slice starts two characters too late,
so the rewrite is `![](le://a.png)` — the `fi` of the `file://` scheme is
dropped — rather than the claimed `![](file://a.png)`. -/
theorem claim_C4_image_truncation :
    finditer imagePattern (str "[\"\"file://a\"\".png]") = [(0, 18)]
    ∧ TranslateImages (str "[\"\"file://a\"\".png]") = str "![](le://a.png)"
    ∧ TranslateImages (str "[\"\"file://a\"\".png]") ≠ str "![](file://a.png)" := by
  decide

/-- Claim C5: the Italics rule pairs the guarded `//` occurrences in order
(first with second, third with fourth, …), dropping a trailing unmatched
delimiter, and wraps each pair's inner text in single underscores:
`a //b// c //d// e` becomes `a _b_ c _d_ e`, and with an odd number of
delimiters (`x //y// z // w`) the final `//` is left untouched. -/
theorem claim_C5_italics_pairing :
    (∀ s : List Char,
      italicsFindRanges s
        = (pairAdjacent (italicsCandidates s)).map (fun q => (q.1.1, q.2.2)))
    ∧ TranslateItalics (str "a //b// c //d// e") = str "a _b_ c _d_ e"
    ∧ TranslateItalics (str "x //y// z // w") = str "x _y_ z // w" :=
  ⟨italicsFindRanges_eq_pairAdjacent, by decide, by decide⟩

/-- Claim C6: feeding `+ a`, `+ b`, `- c`, `+ d` through one fresh
`TranslateLists` instance numbers them `1.`, `2.`, (unchanged), `3.`. -/
theorem claim_C6_list_sequence :
    translateListsAll ⟨[], false⟩ [str "+ a", str "+ b", str "- c", str "+ d"]
      = [str "1. a", str "2. b", str "- c", str "3. d"] := by decide

/-- Claim C7: two consecutive non-matching lines clear the whole history of
any `TranslateLists` state (so the next `+` restarts at `1.`), while a
single non-matching line seen with a clear missed-flag leaves the history
untouched; the two concrete runs show `1. a / x / y / 1. b` (reset) versus
`1. a / x / 2. b` (no reset). -/
theorem claim_C7_reset_after_gap :
    (∀ (st : ListsState) (l₁ l₂ : List Char),
        listMatch l₁ = none → listMatch l₂ = none →
        (translateListsLine (translateListsLine st l₁).1 l₂).1 = ⟨[], true⟩)
    ∧ (∀ (st : ListsState) (l₁ : List Char),
        listMatch l₁ = none → st.missedOne = false →
        (translateListsLine st l₁).1 = ⟨st.history, true⟩)
    ∧ translateListsAll ⟨[], false⟩ [str "+ a", str "x", str "y", str "+ b"]
        = [str "1. a", str "x", str "y", str "1. b"]
    ∧ translateListsAll ⟨[], false⟩ [str "+ a", str "x", str "+ b"]
        = [str "1. a", str "x", str "2. b"] := by
  refine ⟨?_, ?_, by decide, by decide⟩
  · intro st l₁ l₂ h₁ h₂
    simp [translateListsLine, listsFindRanges, h₁, h₂]
  · intro st l₁ h₁ hm
    simp [translateListsLine, listsFindRanges, h₁, hm]

/-- Claim C7 witness: the reset conjunct instantiated at a concrete state
and two concrete non-list lines. -/
theorem claim_C7_reset_witness :
    (translateListsLine (translateListsLine ⟨[7], false⟩ (str "q")).1 (str "r")).1
      = ⟨[], true⟩ :=
  claim_C7_reset_after_gap.1 ⟨[7], false⟩ (str "q") (str "r") (by decide) (by decide)

/-- Claim C8: with padding 1, a whole line with equal nonzero `=`-runs on
both sides becomes `#` repeated `1 + run` times, a space, and the inner
text (`=Title=` ↦ `## Title`, `==Title==` ↦ `### Title`); any other line is
returned unchanged. -/
theorem claim_C8_headers_padding1 :
    TranslateHeaders 1 (str "=Title=") = str "## Title"
    ∧ TranslateHeaders 1 (str "==Title==") = str "### Title"
    ∧ ∀ s : List Char,
        TranslateHeaders 1 s =
          if headerShape s then
            List.replicate (1 + eqRun s) '#'
              ++ ' ' :: pySlice s (eqRun s) (s.length - eqRun s)
          else s := by
  refine ⟨by decide, by decide, fun s => ?_⟩
  by_cases hsh : headerShape s
  · rw [if_pos hsh, headers_apply_shape 1 s hsh, headersTransform]
  · rw [if_neg hsh, TranslateHeaders, headersFindRanges_eq_shape, if_neg hsh,
      morphCall_nil]

/-- Claim C9: the Header rule is idempotent for every padding and every
line — a converted line starts with `#`, which can never match the
whole-line symmetric `=`-run pattern again. -/
theorem claim_C9_header_idempotent (p : Nat) (s : List Char) :
    TranslateHeaders p (TranslateHeaders p s) = TranslateHeaders p s := by
  by_cases hsh : headerShape s
  · have hs := headers_apply_shape p s hsh
    obtain ⟨rest, hrest⟩ := headersTransform_ne_nil p s hsh.1
    rw [hs, hrest, TranslateHeaders, headersFindRanges_hash, morphCall_nil]
  · have hs : TranslateHeaders p s = s := by
      rw [TranslateHeaders, headersFindRanges_eq_shape, if_neg hsh, morphCall_nil]
    rw [hs]
    exact hs

/-- Claim C10: `_ResizeHistory` truncates the history to the new size when
that size is not larger (deeper counters are discarded), and the sequence
`+ a`, `  + b`, `+ c`, `  + d` numbers as `1.`, `1.`, `2.`, `1.` — the
deeper counter restarts after the shallower line truncated it, while the
shallow counter continues. -/
theorem claim_C10_depth_truncation :
    (∀ (h : List Nat) (size : Nat), size ≤ h.length →
        resizeHistory h size = h.take size)
    ∧ translateListsAll ⟨[], false⟩
        [str "+ a", str "  + b", str "+ c", str "  + d"]
        = [str "1. a", str "  1. b", str "2. c", str "  1. d"] := by
  refine ⟨?_, by decide⟩
  intro h size hle
  simp [resizeHistory, Nat.sub_eq_zero_of_le hle]

/-- Claim C10 witness: the truncation conjunct instantiated at a concrete
history and size. -/
theorem claim_C10_truncation_witness :
    resizeHistory [4, 9] 1 = List.take 1 [4, 9] :=
  claim_C10_depth_truncation.1 [4, 9] 1 (by decide)
